import Mathlib

set_option maxRecDepth 8000

namespace Spec2Proof

/-!
Shallow embedding of the debug-session orchestration layer of the repository:
`backend/services/debuggers/javaDebugger.js` (line-oriented REPL adapter driving
`jdb`) and `backend/services/debuggers/nodeDebugger.js` (JSON message-protocol
adapter driving the Node inspector).  JavaScript strings become `String`,
JS `Map`/object dictionaries become association lists with replace-on-insert
semantics, promises/timers become explicit timestamps and a timer queue, and
fallible JS calls become `Except` values supplied as oracles.
-/

/-! ### JavaScript string primitives

Models of the regex and string operations the adapters use
(`String.prototype.trim`, `includes`, `startsWith`, `match`). -/

/-- JS `\s` (ASCII part): space, tab, newline, carriage return, vertical tab, form feed. -/
def jsIsSpace (c : Char) : Bool :=
  c = ' ' || c = '\t' || c = '\n' || c = '\r' || c = '\x0b' || c = '\x0c'

/-- JS `\w`: `[A-Za-z0-9_]`. -/
def jsWordChar (c : Char) : Bool :=
  (c ≥ 'a' && c ≤ 'z') || (c ≥ 'A' && c ≤ 'Z') || c.isDigit || c = '_'

def jsTrimList (cs : List Char) : List Char :=
  ((cs.dropWhile jsIsSpace).reverse.dropWhile jsIsSpace).reverse

/-- JS `String.prototype.trim`. -/
def jsTrim (s : String) : String := String.mk (jsTrimList s.toList)

/-- JS `String.prototype.startsWith(pre)`. -/
def jsStartsWith (s pre : String) : Bool := pre.toList.isPrefixOf s.toList

/-- JS `String.prototype.endsWith(suf)`. -/
def jsEndsWith (s suf : String) : Bool := suf.toList.reverse.isPrefixOf s.toList.reverse

def containsSubGo (pat : List Char) : List Char → Bool
  | [] => pat.isEmpty
  | c :: rest => pat.isPrefixOf (c :: rest) || containsSubGo pat rest

/-- JS `String.prototype.includes(pat)`. -/
def containsSub (s pat : String) : Bool := containsSubGo pat.toList s.toList

def parseDigits (ds : List Char) : Nat :=
  ds.foldl (fun n c => n * 10 + (c.toNat - '0'.toNat)) 0

/-- Scan for the regex `/line=(\d+)/`: first occurrence of `line=` followed by at
least one digit; the capture is the maximal digit run. -/
def findLineNumGo : List Char → Option Nat
  | [] => none
  | c :: rest =>
    if ("line=".toList).isPrefixOf (c :: rest) then
      let ds := (rest.drop 4).takeWhile Char.isDigit
      if ds.isEmpty then findLineNumGo rest else some (parseDigits ds)
    else findLineNumGo rest

def findLineNum (l : String) : Option Nat := findLineNumGo l.toList

/-- The regex `/^\s*(\w+)\s*=\s*(.+)$/` of `javaDebugger.js:147`: captures the
variable name and the text after `=`.  When everything after `=` is whitespace,
the greedy `\s*` backtracks and group 2 is the final whitespace character. -/
def parseAssignment (l : String) : Option (String × String) :=
  let cs1 := l.toList.dropWhile jsIsSpace
  let name := cs1.takeWhile jsWordChar
  let cs2 := (cs1.dropWhile jsWordChar).dropWhile jsIsSpace
  if name.isEmpty then none
  else
    match cs2 with
    | '=' :: rest =>
      match rest.dropWhile jsIsSpace, rest.reverse with
      | [], c :: _ => some (String.mk name, String.mk [c])
      | [], [] => none
      | r, _ => some (String.mk name, String.mk r)
    | _ => none

/-! JS `!isNaN(value)` on a string: whether `Number(value)` is not NaN, i.e. the
trimmed string is empty or a JS numeric literal. -/

def jsIsHexDigit (c : Char) : Bool :=
  c.isDigit || (c ≥ 'a' && c ≤ 'f') || (c ≥ 'A' && c ≤ 'F')

def jsExponent : List Char → Bool
  | '+' :: ds => !ds.isEmpty && ds.all Char.isDigit
  | '-' :: ds => !ds.isEmpty && ds.all Char.isDigit
  | ds => !ds.isEmpty && ds.all Char.isDigit

def jsMantissa (cs : List Char) : Bool :=
  match cs with
  | '.' :: rest => !rest.isEmpty && rest.all Char.isDigit
  | _ =>
    let intPart := cs.takeWhile Char.isDigit
    let rest := cs.dropWhile Char.isDigit
    !intPart.isEmpty &&
      (rest.isEmpty || (rest.head? = some '.' && (rest.drop 1).all Char.isDigit))

def jsDecimal (cs : List Char) : Bool :=
  let mantissa := cs.takeWhile (fun c => c ≠ 'e' && c ≠ 'E')
  let rest := cs.dropWhile (fun c => c ≠ 'e' && c ≠ 'E')
  jsMantissa mantissa && (rest.isEmpty || jsExponent (rest.drop 1))

def jsDecOrInfinity (cs : List Char) : Bool :=
  cs = "Infinity".toList || jsDecimal cs

def jsNumberLiteral : List Char → Bool
  | '+' :: rest => jsDecOrInfinity rest
  | '-' :: rest => jsDecOrInfinity rest
  | '0' :: 'x' :: rest => !rest.isEmpty && rest.all jsIsHexDigit
  | '0' :: 'X' :: rest => !rest.isEmpty && rest.all jsIsHexDigit
  | '0' :: 'b' :: rest => !rest.isEmpty && rest.all (fun c => c = '0' || c = '1')
  | '0' :: 'B' :: rest => !rest.isEmpty && rest.all (fun c => c = '0' || c = '1')
  | '0' :: 'o' :: rest => !rest.isEmpty && rest.all (fun c => c ≥ '0' && c ≤ '7')
  | '0' :: 'O' :: rest => !rest.isEmpty && rest.all (fun c => c ≥ '0' && c ≤ '7')
  | cs => jsDecOrInfinity cs

def jsIsNumericString (s : String) : Bool :=
  let cs := jsTrimList s.toList
  cs.isEmpty || jsNumberLiteral cs

/-! ### Association lists

JS `Map` / plain-object dictionaries: insertion order preserved, `set` replaces
in place, `delete` removes the key. -/

def lookupA {α β : Type} [DecidableEq α] : List (α × β) → α → Option β
  | [], _ => none
  | (k', v') :: rest, k => if k' = k then some v' else lookupA rest k

def insertReplace {α β : Type} [DecidableEq α] : List (α × β) → α → β → List (α × β)
  | [], k, v => [(k, v)]
  | (k', v') :: rest, k, v =>
    if k' = k then (k, v) :: rest else (k', v') :: insertReplace rest k v

def eraseKey {α β : Type} [DecidableEq α] : List (α × β) → α → List (α × β)
  | [], _ => []
  | (k', v') :: rest, k =>
    if k' = k then eraseKey rest k else (k', v') :: eraseKey rest k

def countKey {α β : Type} [DecidableEq α] (m : List (α × β)) (k : α) : Nat :=
  (m.filter fun kv => kv.1 = k).length

theorem lookupA_insertReplace_self {α β : Type} [DecidableEq α]
    (m : List (α × β)) (k : α) (v : β) :
    lookupA (insertReplace m k v) k = some v := by
  induction m with
  | nil => simp [insertReplace, lookupA]
  | cons kv rest ih =>
    obtain ⟨k', v'⟩ := kv
    by_cases h : k' = k <;> simp [insertReplace, lookupA, h, ih]

theorem lookupA_insertReplace_ne {α β : Type} [DecidableEq α]
    (m : List (α × β)) (k k' : α) (v : β) (h : k' ≠ k) :
    lookupA (insertReplace m k v) k' = lookupA m k' := by
  induction m with
  | nil => simp [insertReplace, lookupA, Ne.symm h]
  | cons kv rest ih =>
    obtain ⟨ka, va⟩ := kv
    by_cases hk : ka = k
    · subst hk
      simp [insertReplace, lookupA, Ne.symm h]
    · by_cases hk' : ka = k'
      · subst hk'
        simp [insertReplace, lookupA, hk]
      · simp [insertReplace, lookupA, hk, hk', ih]

theorem lookupA_eraseKey_self {α β : Type} [DecidableEq α]
    (m : List (α × β)) (k : α) :
    lookupA (eraseKey m k) k = none := by
  induction m with
  | nil => simp [eraseKey, lookupA]
  | cons kv rest ih =>
    obtain ⟨k', v'⟩ := kv
    by_cases h : k' = k <;> simp [eraseKey, lookupA, h, ih]

theorem lookupA_eraseKey_ne {α β : Type} [DecidableEq α]
    (m : List (α × β)) (k k' : α) (h : k' ≠ k) :
    lookupA (eraseKey m k) k' = lookupA m k' := by
  induction m with
  | nil => simp [eraseKey, lookupA]
  | cons kv rest ih =>
    obtain ⟨ka, va⟩ := kv
    by_cases hk : ka = k
    · subst hk
      simp [eraseKey, lookupA, Ne.symm h, ih]
    · by_cases hk' : ka = k'
      · subst hk'
        simp [eraseKey, lookupA, hk]
      · simp [eraseKey, lookupA, hk, hk', ih]

theorem countKey_insertReplace_absent {α β : Type} [DecidableEq α]
    (m : List (α × β)) (k : α) (v : β) (h : countKey m k = 0) :
    countKey (insertReplace m k v) k = 1 := by
  induction m with
  | nil => simp [insertReplace, countKey]
  | cons kv rest ih =>
    obtain ⟨k', v'⟩ := kv
    by_cases hk : k' = k
    · subst hk
      exfalso
      simp [countKey] at h
    · simp [countKey, hk] at h
      simp [insertReplace, countKey, hk] at ih ⊢
      exact ih h

/-! ### REPL adapter (`javaDebugger.js`): command queue and line handler

Timed small-step model of the `jdb` adapter's stdin command queue
(`_queueCommand` / `_processNextCommand` / `_sendCommand`) and of the
`readline` line handler installed by `_setupEventHandlers`.  Time is virtual
(milliseconds); JS `setTimeout` chains become pending timers carried in the
state.  Dispatching a queued command writes it to stdin immediately; the
promise chain of `_processNextCommand` (`_sendCommand`'s 100 ms resolve, the
500 ms settle sleep, and the 100 ms `finally` timer) clears
`processingCommand` and re-runs `_processNextCommand` 700 ms after the write. -/

structure JVar where
  value : String
  type : String
deriving DecidableEq

/-- Listener notifications (`_notifyListeners`).  The payload field `vars`
models the JS payload property `variables` (a Lean reserved word). -/
inductive JEvent
  | breakpointHit (line : Nat) (vars : List (String × JVar))
  | stepComplete (line : Nat) (vars : List (String × JVar))
  | variablesUpdated (vars : List (String × JVar))
  | output (type : String) (message : String)
deriving DecidableEq

inductive JTimer
  /-- the `finally` chain of `_processNextCommand`: clears the flag and re-runs
  the queue, 700 ms after the command was written to stdin -/
  | clearNext (time : Nat)
  /-- `_getVariables` settling (100 ms `_sendCommand` delay + 1000 ms sleep)
  after a landing line: notifies listeners, clears the flag, schedules the
  queue re-run 100 ms later -/
  | varsSettle (time : Nat) (isBp : Bool)
  /-- a bare deferred `_processNextCommand()` call -/
  | procNext (time : Nat)
deriving DecidableEq

def JTimer.time : JTimer → Nat
  | .clearNext t => t
  | .varsSettle t _ => t
  | .procNext t => t

structure JDState where
  now : Nat
  commandQueue : List String
  processingCommand : Bool
  timers : List JTimer
  /-- all stdin writes `(text, time)`, newest first (queued commands and the
  direct `locals` write of `_getVariables`) -/
  writes : List (String × Nat)
  /-- stdin writes of queued commands only, newest first -/
  queuedWrites : List (String × Nat)
  /-- `this.variables` (a Lean reserved word, hence `vars`) -/
  vars : List (String × JVar)
  currentLine : Nat
  isRunning : Bool
  events : List JEvent
deriving DecidableEq

def jInit : JDState :=
  { now := 0, commandQueue := [], processingCommand := false, timers := [],
    writes := [], queuedWrites := [], vars := [], currentLine := 0,
    isRunning := false, events := [] }

/-- `_processNextCommand`: dispatches the head of the queue unless a command is
already in flight; the dispatched command is written to stdin now and the
flag-clearing `finally` chain fires 700 ms later. -/
def jProcessNext (s : JDState) : JDState :=
  if s.processingCommand then s
  else
    match s.commandQueue with
    | [] => s
    | c :: rest =>
      { s with
        processingCommand := true
        commandQueue := rest
        writes := (c, s.now) :: s.writes
        queuedWrites := (c, s.now) :: s.queuedWrites
        timers := JTimer.clearNext (s.now + 700) :: s.timers }

/-- `_queueCommand`: push the command, then run the queue if idle. -/
def jEnqueue (c : String) (s : JDState) : JDState :=
  let s' := { s with commandQueue := s.commandQueue ++ [c] }
  if s'.processingCommand then s' else jProcessNext s'

/-- `_inferType` of `javaDebugger.js`. -/
def jInferType (value : String) : String :=
  if value = "null" then "null"
  else if value = "true" || value = "false" then "boolean"
  else if jsIsNumericString value then "number"
  else if jsStartsWith value "\"" && jsEndsWith value "\"" then "string"
  else if containsSub value "@" then "object"
  else "unknown"

/-- The snapshot entry stored for a captured `name = value` echo line:
the captured text is trimmed and its type inferred lexically. -/
def jVarOfText (raw : String) : JVar :=
  let varValue := jsTrim raw
  { value := varValue, type := jInferType varValue }

/-- The `readline` `line` handler of `_setupEventHandlers`, branch by branch in
source order: landing lines (`Breakpoint hit:` / `Step completed:` with a
`line=N` match) record the line, clear the snapshot, write `locals` directly to
stdin and schedule the 1100 ms `_getVariables` settle; assignment-shaped lines
update the snapshot; the program-exit marker and error markers notify, clear
the in-flight flag and re-run the queue synchronously. -/
def jLineAction (l : String) (s : JDState) : JDState :=
  let s1 :=
    if containsSub l "Breakpoint hit:" || containsSub l "Step completed:" then
      match findLineNum l with
      | some n =>
        { s with
          currentLine := n
          vars := []
          writes := ("locals", s.now) :: s.writes
          timers := JTimer.varsSettle (s.now + 1100) (containsSub l "Breakpoint hit:") :: s.timers }
      | none => s
    else s
  let s2 :=
    match parseAssignment l with
    | some (name, raw) => { s1 with vars := insertReplace s1.vars name (jVarOfText raw) }
    | none => s1
  let s3 :=
    if containsSub l "The application exited" then
      jProcessNext
        { s2 with
          events := JEvent.output "info" "Program execution completed" :: s2.events
          isRunning := false
          processingCommand := false }
    else s2
  if containsSub l "Exception occurred" || jsStartsWith l "ERROR:" then
    jProcessNext
      { s3 with
        events := JEvent.output "error" l :: s3.events
        processingCommand := false }
  else s3

/-- Firing the `_getVariables` settle: notify `variablesUpdated` then the
landing event (both read `currentLine`/`variables` at this moment), clear the
in-flight flag, and schedule `_processNextCommand` 100 ms later. -/
def jFireVarsSettle (isBp : Bool) (s : JDState) : JDState :=
  { s with
    events :=
      (if isBp then JEvent.breakpointHit s.currentLine s.vars
       else JEvent.stepComplete s.currentLine s.vars)
        :: JEvent.variablesUpdated s.vars :: s.events
    processingCommand := false
    timers := JTimer.procNext (s.now + 100) :: s.timers }

def jFireTimer (tm : JTimer) (s : JDState) : JDState :=
  match tm with
  | .clearNext _ => jProcessNext { s with processingCommand := false }
  | .varsSettle _ isBp => jFireVarsSettle isBp s
  | .procNext _ => jProcessNext s

/-- One step of the adapter's event loop.  External events (a queued command
from a public operation, a line read from jdb's stdout) occur at a time `t` no
earlier than `now` and no later than any pending timer's due time; timers fire
at their due time, earliest first.  `P` restricts which output lines the
environment may deliver (`fun _ => True` is the full semantics). -/
inductive JStep (P : String → Prop) : JDState → JDState → Prop
  | enqueue (c : String) (t : Nat) (s : JDState)
      (ht : s.now ≤ t) (htm : ∀ tm ∈ s.timers, t ≤ JTimer.time tm) :
      JStep P s (jEnqueue c { s with now := t })
  | line (l : String) (t : Nat) (s : JDState)
      (hp : P l) (ht : s.now ≤ t) (htm : ∀ tm ∈ s.timers, t ≤ JTimer.time tm) :
      JStep P s (jLineAction l { s with now := t })
  | fire (tm : JTimer) (s : JDState)
      (hmem : tm ∈ s.timers) (hnow : s.now ≤ JTimer.time tm)
      (hmin : ∀ tm' ∈ s.timers, JTimer.time tm ≤ JTimer.time tm') :
      JStep P s (jFireTimer tm { s with now := JTimer.time tm, timers := s.timers.erase tm })

inductive JReach (P : String → Prop) : JDState → JDState → Prop
  | refl (s : JDState) : JReach P s s
  | step (s₁ s₂ s₃ : JDState) : JReach P s₁ s₂ → JStep P s₂ s₃ → JReach P s₁ s₃

/-- Lines whose handler branch touches the command queue machinery: landing
lines with a parsable line number (they schedule a deferred flag clear), the
program-exit marker, and the error markers (they clear the flag at once). -/
def jFlagTouching (l : String) : Bool :=
  ((containsSub l "Breakpoint hit:" || containsSub l "Step completed:")
      && (findLineNum l).isSome)
    || containsSub l "The application exited"
    || containsSub l "Exception occurred"
    || jsStartsWith l "ERROR:"

/-- The full semantics: any line may arrive. -/
def jAnyLine : String → Prop := fun _ => True

/-- The restricted semantics: no line that touches the queue machinery. -/
def jCleanLine : String → Prop := fun l => jFlagTouching l = false

/-! ### The queue-ordering invariant (clean runs)

In runs where no queue-touching line arrives, the in-flight flag, the single
pending `clearNext` timer, and the stdin write times of queued commands stay in
lock step: consecutive queued writes are at least 700 ms apart. -/

structure JInv (s : JDState) : Prop where
  timersFuture : ∀ tm ∈ s.timers, s.now ≤ JTimer.time tm
  writesPast : ∀ w ∈ s.queuedWrites, w.2 ≤ s.now
  writesSep : List.Pairwise (fun a b => b.2 + 700 ≤ a.2) s.queuedWrites
  flagT : s.processingCommand = true →
    ∃ c t, s.queuedWrites.head? = some (c, t) ∧ s.timers = [JTimer.clearNext (t + 700)]
  flagF : s.processingCommand = false →
    s.timers = [] ∧ s.commandQueue = [] ∧
      ∀ c t, s.queuedWrites.head? = some (c, t) → t + 700 ≤ s.now

theorem jInv_init : JInv jInit := by
  refine ⟨?_, ?_, ?_, ?_, ?_⟩
  · intro tm htm
    simp [jInit] at htm
  · intro w hw
    simp [jInit] at hw
  · simp [jInit]
  · intro h
    simp [jInit] at h
  · intro _
    refine ⟨rfl, rfl, ?_⟩
    intro c t h
    simp [jInit] at h

theorem jInv_processNext (s : JDState)
    (hflag : s.processingCommand = false)
    (htimers : s.timers = [])
    (hpast : ∀ w ∈ s.queuedWrites, w.2 ≤ s.now)
    (hsep : List.Pairwise (fun a b => b.2 + 700 ≤ a.2) s.queuedWrites)
    (hhead : ∀ c t, s.queuedWrites.head? = some (c, t) → t + 700 ≤ s.now) :
    JInv (jProcessNext s) := by
  have hall : ∀ b ∈ s.queuedWrites, b.2 + 700 ≤ s.now := by
    intro b hb
    cases hqw : s.queuedWrites with
    | nil => rw [hqw] at hb; cases hb
    | cons hd tl =>
      rw [hqw] at hb
      rcases List.mem_cons.mp hb with rfl | hbtl
      · exact hhead b.1 b.2 (by simp [hqw])
      · have h1 : b.2 + 700 ≤ hd.2 := by
          have := hqw ▸ hsep
          exact (List.pairwise_cons.mp this).1 b hbtl
        have h2 : hd.2 ≤ s.now := hpast hd (by simp [hqw])
        omega
  unfold jProcessNext
  rw [if_neg (by simp [hflag])]
  cases hq : s.commandQueue with
  | nil =>
    refine ⟨?_, hpast, hsep, ?_, ?_⟩
    · intro tm htm
      rw [htimers] at htm
      cases htm
    · intro h
      rw [hflag] at h
      cases h
    · intro _
      exact ⟨htimers, hq, hhead⟩
  | cons c rest =>
    refine ⟨?_, ?_, ?_, ?_, ?_⟩
    · intro tm htm
      rcases List.mem_cons.mp htm with rfl | htl
      · simp [JTimer.time]
      · rw [htimers] at htl
        cases htl
    · intro w hw
      rcases List.mem_cons.mp hw with rfl | htl
      · exact le_refl _
      · exact hpast w htl
    · exact List.pairwise_cons.mpr ⟨hall, hsep⟩
    · intro _
      exact ⟨c, s.now, rfl, by rw [htimers]⟩
    · intro h
      cases h

theorem jInv_enqueue (s : JDState) (hinv : JInv s) (c : String) (t : Nat)
    (ht : s.now ≤ t) (htm : ∀ tm ∈ s.timers, t ≤ JTimer.time tm) :
    JInv (jEnqueue c { s with now := t }) := by
  unfold jEnqueue
  by_cases hp : s.processingCommand = true
  · rw [if_pos (by simpa using hp)]
    obtain ⟨c₀, t₀, hhead, htim⟩ := hinv.flagT hp
    refine ⟨?_, ?_, hinv.writesSep, ?_, ?_⟩
    · intro tm h
      exact htm tm h
    · intro w hw
      exact le_trans (hinv.writesPast w hw) ht
    · intro _
      exact ⟨c₀, t₀, hhead, htim⟩
    · intro h
      rw [hp] at h
      cases h
  · have hp' : s.processingCommand = false := by simpa using hp
    rw [if_neg (by simpa using hp)]
    obtain ⟨htim, hq, hhead⟩ := hinv.flagF hp'
    apply jInv_processNext
    · exact hp'
    · exact htim
    · intro w hw
      exact le_trans (hinv.writesPast w hw) ht
    · exact hinv.writesSep
    · intro c' t' h
      exact le_trans (hhead c' t' h) ht

theorem jInv_fire (s : JDState) (hinv : JInv s) (tm : JTimer)
    (hmem : tm ∈ s.timers) (hnow : s.now ≤ JTimer.time tm) :
    JInv (jFireTimer tm { s with now := JTimer.time tm, timers := s.timers.erase tm }) := by
  by_cases hp : s.processingCommand = true
  · obtain ⟨c, t, hhead, htim⟩ := hinv.flagT hp
    rw [htim] at hmem
    have htm : tm = JTimer.clearNext (t + 700) := by simpa using hmem
    subst htm
    have herase : s.timers.erase (JTimer.clearNext (t + 700)) = [] := by
      rw [htim]
      simp
    unfold jFireTimer
    apply jInv_processNext
    · rfl
    · exact herase
    · intro w hw
      exact le_trans (hinv.writesPast w hw) hnow
    · exact hinv.writesSep
    · intro c' t' h
      rw [hhead] at h
      injection h with h'
      injection h' with h1 h2
      subst h2
      exact le_refl _
  · have hp' : s.processingCommand = false := by simpa using hp
    have htim := (hinv.flagF hp').1
    rw [htim] at hmem
    cases hmem

/-- A line none of whose handler branches touches the queue machinery changes
at most the variable snapshot. -/
theorem jLineAction_clean (l : String) (hl : jFlagTouching l = false) (s : JDState) :
    ∃ v, jLineAction l s = { s with vars := v } := by
  have hl' := hl
  unfold jFlagTouching at hl'
  rw [Bool.or_eq_false_iff, Bool.or_eq_false_iff, Bool.or_eq_false_iff] at hl'
  obtain ⟨⟨⟨hland, hexit⟩, hexc⟩, herr⟩ := hl'
  unfold jLineAction
  cases hm : (containsSub l "Breakpoint hit:" || containsSub l "Step completed:") with
  | true =>
    rw [hm] at hland
    have hfind : findLineNum l = none := by
      cases hf : findLineNum l with
      | none => rfl
      | some n =>
        rw [Bool.and_eq_false_iff] at hland
        rcases hland with h | h
        · cases h
        · rw [hf] at h
          cases h
    cases hpa : parseAssignment l with
    | none =>
      refine ⟨s.vars, ?_⟩
      simp [hm, hfind, hpa, hexit, hexc, herr]
    | some nv =>
      refine ⟨insertReplace s.vars nv.1 (jVarOfText nv.2), ?_⟩
      simp [hm, hfind, hpa, hexit, hexc, herr]
  | false =>
    cases hpa : parseAssignment l with
    | none =>
      refine ⟨s.vars, ?_⟩
      simp [hm, hpa, hexit, hexc, herr]
    | some nv =>
      refine ⟨insertReplace s.vars nv.1 (jVarOfText nv.2), ?_⟩
      simp [hm, hpa, hexit, hexc, herr]

theorem jInv_step (s s' : JDState) (hinv : JInv s) (h : JStep jCleanLine s s') : JInv s' := by
  cases h with
  | enqueue c t s ht htm => exact jInv_enqueue s hinv c t ht htm
  | line l t s hp ht htm =>
    obtain ⟨v, hv⟩ := jLineAction_clean l hp { s with now := t }
    rw [hv]
    refine ⟨?_, ?_, hinv.writesSep, ?_, ?_⟩
    · intro tm h
      exact htm tm h
    · intro w hw
      exact le_trans (hinv.writesPast w hw) ht
    · intro hpc
      exact hinv.flagT hpc
    · intro hpc
      obtain ⟨htim, hq, hhead⟩ := hinv.flagF hpc
      exact ⟨htim, hq, fun c' t' hh => le_trans (hhead c' t' hh) ht⟩
  | fire tm s hmem hnow hmin => exact jInv_fire s hinv tm hmem hnow

theorem jInv_reach (s : JDState) (h : JReach jCleanLine jInit s) : JInv s := by
  induction h with
  | refl => exact jInv_init
  | step s₂ s₃ hreach hstep ih => exact jInv_step s₂ s₃ ih hstep

/-- C1 (amended): in any run of the REPL adapter in which no output line whose
handler branch touches the queue machinery (a landing line with a parsable
line number, the program-exit marker, or an error marker) is read, any later
queued command B is written to the debugger's stdin no earlier than 600 ms
(the post-write delay plus the fixed settle delay; in fact 700 ms) after any
earlier queued command A's write; at most one command is in flight at any
instant (the in-flight flag holds exactly one pending flag-clearing timer),
and the next queued command is dispatched only once the flag is cleared. -/
theorem C1_repl_settle_ordering_amended (s : JDState)
    (h : JReach jCleanLine jInit s) :
    List.Pairwise (fun a b => b.2 + 600 ≤ a.2) s.queuedWrites ∧
    (s.processingCommand = true → ∃ t, s.timers = [JTimer.clearNext t]) ∧
    (s.processingCommand = false → s.timers = []) := by
  have hinv := jInv_reach s h
  refine ⟨?_, ?_, ?_⟩
  · exact hinv.writesSep.imp (fun hab => by omega)
  · intro hp
    obtain ⟨c, t, _, htim⟩ := hinv.flagT hp
    exact ⟨t + 700, htim⟩
  · intro hp
    exact (hinv.flagF hp).1

def jW : JDState := jEnqueue "run" { jInit with now := 0 }

theorem C1_repl_settle_ordering_witness :
    List.Pairwise (fun (a b : String × Nat) => b.2 + 600 ≤ a.2) jW.queuedWrites ∧
    (jW.processingCommand = true → ∃ t, jW.timers = [JTimer.clearNext t]) ∧
    (jW.processingCommand = false → jW.timers = []) :=
  C1_repl_settle_ordering_amended jW
    (JReach.step _ _ _ (JReach.refl _)
      (JStep.enqueue "run" 0 jInit (by decide) (by intro tm htm; simp [jInit] at htm)))

def jCex : JDState :=
  jLineAction "ERROR: NullPointerException"
    { jEnqueue "cont" { jEnqueue "run" { jInit with now := 0 } with now := 10 } with now := 50 }

/-- C1 counterexample: queue "run" (written to stdin at t = 0 ms) and then
"cont"; an `ERROR:`-prefixed line read at t = 50 ms resets the in-flight flag
and synchronously dispatches "cont", which is written at t = 50 ms — before
"run"'s settle window (100 ms post-write delay + 500 ms settle delay = 600 ms)
has elapsed.  So the claim as stated is false of the code. -/
theorem C1_repl_settle_ordering_counterexample :
    JReach jAnyLine jInit jCex ∧
    jCex.queuedWrites = [("cont", 50), ("run", 0)] ∧
    50 < 0 + 600 := by
  refine ⟨?_, rfl, by decide⟩
  have h1 : JStep jAnyLine jInit (jEnqueue "run" { jInit with now := 0 }) :=
    JStep.enqueue "run" 0 jInit (by decide) (by intro tm htm; simp [jInit] at htm)
  have h2 : JStep jAnyLine (jEnqueue "run" { jInit with now := 0 })
      (jEnqueue "cont" { jEnqueue "run" { jInit with now := 0 } with now := 10 }) := by
    refine JStep.enqueue "cont" 10 _ (Nat.zero_le 10) ?_
    intro tm htm
    have h : tm = JTimer.clearNext 700 := List.mem_singleton.mp htm
    subst h
    decide
  have h3 : JStep jAnyLine
      (jEnqueue "cont" { jEnqueue "run" { jInit with now := 0 } with now := 10 }) jCex := by
    refine JStep.line "ERROR: NullPointerException" 50 _ trivial (by decide) ?_
    intro tm htm
    have h : tm = JTimer.clearNext 700 := List.mem_singleton.mp htm
    subst h
    decide
  exact JReach.step _ _ _ (JReach.step _ _ _ (JReach.step _ _ _ (JReach.refl _) h1) h2) h3

/-! ### C9: capture of assignment-shaped echo lines -/

theorem jProcessNext_vars (s : JDState) : (jProcessNext s).vars = s.vars := by
  unfold jProcessNext
  split
  · rfl
  · split <;> rfl

/-- C9 (amended): an assignment-shaped echo line `name = value` read from the
debugger's stdout updates the snapshot entry for `name` whenever it is read —
whether or not a dump-locals command is in flight; the capture is
unconditional. -/
theorem C9_assignment_capture_amended (s : JDState) (l name raw : String)
    (h : parseAssignment l = some (name, raw)) :
    lookupA (jLineAction l s).vars name = some (jVarOfText raw) := by
  cases h1 : (containsSub l "Breakpoint hit:" || containsSub l "Step completed:") with
  | true =>
    cases hfind : findLineNum l with
    | none =>
      cases h2 : containsSub l "The application exited" <;>
        cases h3 : (containsSub l "Exception occurred" || jsStartsWith l "ERROR:") <;>
          simp [jLineAction, h, h1, h2, h3, hfind, jProcessNext_vars,
            lookupA_insertReplace_self]
    | some n =>
      cases h2 : containsSub l "The application exited" <;>
        cases h3 : (containsSub l "Exception occurred" || jsStartsWith l "ERROR:") <;>
          simp [jLineAction, h, h1, h2, h3, hfind, jProcessNext_vars,
            lookupA_insertReplace_self]
  | false =>
    cases h2 : containsSub l "The application exited" <;>
      cases h3 : (containsSub l "Exception occurred" || jsStartsWith l "ERROR:") <;>
        simp [jLineAction, h, h1, h2, h3, jProcessNext_vars,
          lookupA_insertReplace_self]

def jCex9 : JDState := jLineAction "count = 5" { jInit with now := 0 }

theorem C9_assignment_capture_amended_witness :
    lookupA jCex9.vars "count" = some (jVarOfText "5") :=
  C9_assignment_capture_amended { jInit with now := 0 } "count = 5" "count" "5" rfl

/-- C9 counterexample: in the initial state nothing was ever written to the
debugger process (in particular no dump-locals command is or was ever in
flight), yet reading the assignment-shaped line `count = 5` changes the
variable snapshot — refuting the claim that such lines are captured only while
a dump-locals command is in flight. -/
theorem C9_assignment_capture_counterexample :
    JReach jAnyLine jInit jCex9 ∧
    jCex9.writes = [] ∧
    jInit.vars = [] ∧
    jCex9.vars = [("count", { value := "5", type := "number" })] := by
  refine ⟨?_, rfl, rfl, rfl⟩
  exact JReach.step _ _ _ (JReach.refl _)
    (JStep.line "count = 5" 0 jInit trivial (by decide) (by intro tm htm; simp [jInit] at htm))

/-! ### REPL snapshot accumulation (for C7)

The REPL adapter's snapshot lifecycle: a landing line resets `this.variables`
and starts the dump-locals fetch; until its settle fires, assignment echo
lines accumulate into the fresh snapshot; the settle then notifies listeners
with the single snapshot so accumulated. -/

/-- A landing line: a `Breakpoint hit:` / `Step completed:` marker carrying a
parsable `line=N`. -/
def jIsLanding (l : String) : Bool :=
  (containsSub l "Breakpoint hit:" || containsSub l "Step completed:")
    && (findLineNum l).isSome

/-- The assignment-capture branch of the line handler as a function of the
current snapshot: a `name = value` line replaces the entry for `name`, any
other line leaves the snapshot unchanged. -/
def jCaptureLine (v : List (String × JVar)) (l : String) : List (String × JVar) :=
  match parseAssignment l with
  | some (name, raw) => insertReplace v name (jVarOfText raw)
  | none => v

theorem jEnqueue_vars (c : String) (s : JDState) : (jEnqueue c s).vars = s.vars := by
  cases hp : s.processingCommand with
  | true => simp [jEnqueue, hp]
  | false => simp [jEnqueue, hp, jProcessNext_vars]

theorem jFireTimer_vars (tm : JTimer) (s : JDState) : (jFireTimer tm s).vars = s.vars := by
  cases tm with
  | clearNext t => exact jProcessNext_vars _
  | varsSettle t isBp => rfl
  | procNext t => exact jProcessNext_vars _

/-- A landing line rebuilds the snapshot from scratch: the result is computed
from the line alone (the reset to `{}` plus the line's own capture, if any),
never merged with the prior snapshot. -/
theorem jLineAction_vars_landing (l : String) (s : JDState) (hl : jIsLanding l = true) :
    (jLineAction l s).vars = jCaptureLine [] l := by
  unfold jIsLanding at hl
  rw [Bool.and_eq_true] at hl
  obtain ⟨hm, hsome⟩ := hl
  obtain ⟨n, hfind⟩ := Option.isSome_iff_exists.mp hsome
  cases hpa : parseAssignment l with
  | none =>
    cases h2 : containsSub l "The application exited" <;>
      cases h3 : (containsSub l "Exception occurred" || jsStartsWith l "ERROR:") <;>
        simp [jLineAction, jCaptureLine, hm, hfind, hpa, h2, h3, jProcessNext_vars]
  | some nv =>
    cases h2 : containsSub l "The application exited" <;>
      cases h3 : (containsSub l "Exception occurred" || jsStartsWith l "ERROR:") <;>
        simp [jLineAction, jCaptureLine, hm, hfind, hpa, h2, h3, jProcessNext_vars]

/-- A non-landing line changes the snapshot exactly by its capture branch. -/
theorem jLineAction_vars_nonlanding (l : String) (s : JDState)
    (hl : jIsLanding l = false) :
    (jLineAction l s).vars = jCaptureLine s.vars l := by
  unfold jIsLanding at hl
  cases hm : (containsSub l "Breakpoint hit:" || containsSub l "Step completed:") with
  | true =>
    have hfind : findLineNum l = none := by
      cases hf : findLineNum l with
      | none => rfl
      | some n =>
        rw [hm, hf] at hl
        simp at hl
    cases hpa : parseAssignment l with
    | none =>
      cases h2 : containsSub l "The application exited" <;>
        cases h3 : (containsSub l "Exception occurred" || jsStartsWith l "ERROR:") <;>
          simp [jLineAction, jCaptureLine, hm, hfind, hpa, h2, h3, jProcessNext_vars]
    | some nv =>
      cases h2 : containsSub l "The application exited" <;>
        cases h3 : (containsSub l "Exception occurred" || jsStartsWith l "ERROR:") <;>
          simp [jLineAction, jCaptureLine, hm, hfind, hpa, h2, h3, jProcessNext_vars]
  | false =>
    cases hpa : parseAssignment l with
    | none =>
      cases h2 : containsSub l "The application exited" <;>
        cases h3 : (containsSub l "Exception occurred" || jsStartsWith l "ERROR:") <;>
          simp [jLineAction, jCaptureLine, hm, hpa, h2, h3, jProcessNext_vars]
    | some nv =>
      cases h2 : containsSub l "The application exited" <;>
        cases h3 : (containsSub l "Exception occurred" || jsStartsWith l "ERROR:") <;>
          simp [jLineAction, jCaptureLine, hm, hpa, h2, h3, jProcessNext_vars]

/-- The event-loop reach relation of the REPL adapter, recording (in order)
the output lines read along the way; the step side conditions are those of
`JStep`. -/
inductive JReachLines : JDState → List String → JDState → Prop
  | refl (s : JDState) : JReachLines s [] s
  | enqueue (s₁ : JDState) (ls : List String) (s₂ : JDState) (c : String) (t : Nat) :
      JReachLines s₁ ls s₂ → s₂.now ≤ t → (∀ tm ∈ s₂.timers, t ≤ JTimer.time tm) →
      JReachLines s₁ ls (jEnqueue c { s₂ with now := t })
  | fire (s₁ : JDState) (ls : List String) (s₂ : JDState) (tm : JTimer) :
      JReachLines s₁ ls s₂ → tm ∈ s₂.timers → s₂.now ≤ JTimer.time tm →
      (∀ tm' ∈ s₂.timers, JTimer.time tm ≤ JTimer.time tm') →
      JReachLines s₁ ls
        (jFireTimer tm { s₂ with now := JTimer.time tm, timers := s₂.timers.erase tm })
  | line (s₁ : JDState) (ls : List String) (s₂ : JDState) (l : String) (t : Nat) :
      JReachLines s₁ ls s₂ → s₂.now ≤ t → (∀ tm ∈ s₂.timers, t ≤ JTimer.time tm) →
      JReachLines s₁ (ls ++ [l]) (jLineAction l { s₂ with now := t })

/-- Across any stretch of the event loop that reads no landing line, the
snapshot is exactly the fold of the capture branch over the lines read, over
the snapshot at the start of the stretch. -/
theorem JReachLines_vars (s₀ : JDState) (ls : List String) (s₁ : JDState)
    (h : JReachLines s₀ ls s₁) :
    (∀ l ∈ ls, jIsLanding l = false) → s₁.vars = ls.foldl jCaptureLine s₀.vars := by
  induction h with
  | refl =>
    intro _
    rfl
  | enqueue ls s₂ c t hr ht htm ih =>
    intro hls
    rw [jEnqueue_vars]
    exact ih hls
  | fire ls s₂ tm hr hmem hnow hmin ih =>
    intro hls
    rw [jFireTimer_vars]
    exact ih hls
  | line ls s₂ l t hr ht htm ih =>
    intro hls
    have hl : jIsLanding l = false := hls l (by simp)
    have hrest : ∀ l1 ∈ ls, jIsLanding l1 = false :=
      fun l1 h1 => hls l1 (by simp [h1])
    rw [jLineAction_vars_nonlanding l _ hl]
    show jCaptureLine s₂.vars l = (ls ++ [l]).foldl jCaptureLine s₀.vars
    rw [ih hrest, List.foldl_append]
    rfl

/-! ### Message-protocol adapter (`nodeDebugger.js`)

JS runtime values carried in inspector messages. -/

inductive JVal
  | str (s : String)
  | num (n : Int)
  | bool (b : Bool)
  | null
  | undefined
deriving DecidableEq

/-- JS truthiness of the values we model. -/
def jsTruthy : JVal → Bool
  | .str s => !(s = "")
  | .num n => !(n = 0)
  | .bool b => b
  | .null => false
  | .undefined => false

/-- JS `a || b` on values. -/
def jsOr (a b : JVal) : JVal := if jsTruthy a then a else b

/-- JS template-literal stringification. -/
def jvalToString : JVal → String
  | .str s => s
  | .num n => toString n
  | .bool b => if b then "true" else "false"
  | .null => "null"
  | .undefined => "undefined"

def jsOptVal : Option JVal → JVal
  | some v => v
  | none => .undefined

def jsOptStr : Option String → JVal
  | some s => .str s
  | none => .undefined

/-- A CDP `RemoteObject` as the adapter reads it (`value.type`, `value.value`,
`value.description`). -/
structure RemoteValue where
  type : String
  value : Option JVal := none
  description : Option String := none
deriving DecidableEq

/-- `_formatValue` of `nodeDebugger.js`. -/
def formatValue (value : RemoteValue) : JVal :=
  if value.type = "undefined" then .str "undefined"
  else if value.type = "null" then .str "null"
  else if value.type = "string" then .str ("\"" ++ jvalToString (jsOptVal value.value) ++ "\"")
  else if value.type = "number" || value.type = "boolean" then jsOptVal value.value
  else if value.type = "object" then jsOr (jsOptStr value.description) (.str "[object]")
  else if value.type = "function" then .str "[function]"
  else jsOr (jsOptStr value.description) (jsOr (jsOptVal value.value) (.str value.type))

structure PropertyDescriptor where
  name : String
  value : Option RemoteValue := none
deriving DecidableEq

/-- A scope-chain entry bundled with the backend's `Runtime.getProperties`
reply (`result`) for its object — the reply the adapter receives for the
request it issues while folding this scope in `_updateVariables`. -/
structure Scope where
  type : String
  props : List PropertyDescriptor
deriving DecidableEq

/-- A snapshot entry `{ value, type }`. -/
structure NVar where
  value : JVal
  type : String
deriving DecidableEq

/-- Listener notifications of the node adapter (payload field `vars` models
the JS payload property `variables`). -/
inductive NEvent
  | breakpointHit (line : Nat) (vars : List (String × NVar))
  | stepComplete (line : Nat) (vars : List (String × NVar))
  | variablesUpdated (vars : List (String × NVar))
  | output (type : String) (message : String)
deriving DecidableEq

/-- The inner loop of `_updateVariables`: fold one scope's property list into
the snapshot, skipping properties without a value and `__`-prefixed names. -/
def foldProps (vars : List (String × NVar)) (result : List PropertyDescriptor) :
    List (String × NVar) :=
  result.foldl
    (fun m prop =>
      match prop.value with
      | some v =>
        if jsStartsWith prop.name "__" then m
        else insertReplace m prop.name { value := formatValue v, type := v.type }
      | none => m)
    vars

/-- `_updateVariables`: rebuild the snapshot from scratch over the local and
global scopes of the chain. -/
def updateVariables (scopeChain : List Scope) : List (String × NVar) :=
  scopeChain.foldl
    (fun m scope =>
      if scope.type = "local" || scope.type = "global" then foldProps m scope.props else m)
    []

/-- `getVariables()`: returns the current `this.variables` object as is. -/
def getVariables (vars : List (String × NVar)) : List (String × NVar) := vars

/-- The values of `this.variables` a concurrently scheduled `getVariables()`
caller can observe at the `await` suspension points inside `_updateVariables`
(just before each relevant scope's `Runtime.getProperties` reply is folded
in), starting from the freshly cleared snapshot. -/
def updateObservationsGo (m : List (String × NVar)) :
    List Scope → List (List (String × NVar))
  | [] => []
  | scope :: rest =>
    if scope.type = "local" || scope.type = "global" then
      m :: updateObservationsGo (foldProps m scope.props) rest
    else updateObservationsGo m rest

def updateObservations (scopeChain : List Scope) : List (List (String × NVar)) :=
  updateObservationsGo [] scopeChain

structure Location where
  lineNumber : Nat
deriving DecidableEq

structure CallFrame where
  location : Location
  scopeChain : List Scope
deriving DecidableEq

structure PausedParams where
  reason : String
  callFrames : List CallFrame
deriving DecidableEq

structure NPauseState where
  currentLine : Nat
  vars : List (String × NVar)
deriving DecidableEq

/-- `_handlePaused`: read the top frame's 0-based line, store it 1-based,
rebuild the snapshot from the frame's scope chain, then dispatch on the pause
reason: `other`/`ambiguous` → `stepComplete`, `breakpoint` → `breakpointHit`,
anything else → no landing event.  Returns `none` when `callFrames` is empty
(the JS code would throw reading `location` of `undefined`). -/
def handlePaused (params : PausedParams) (s : NPauseState) :
    Option (NPauseState × List NEvent) :=
  match params.callFrames with
  | [] => none
  | topFrame :: _ =>
    let currentLine := topFrame.location.lineNumber + 1
    let vars := updateVariables topFrame.scopeChain
    let evs :=
      if params.reason = "other" ∨ params.reason = "ambiguous" then
        [NEvent.variablesUpdated vars, NEvent.stepComplete currentLine vars]
      else if params.reason = "breakpoint" then
        [NEvent.variablesUpdated vars, NEvent.breakpointHit currentLine vars]
      else
        [NEvent.variablesUpdated vars]
    some ({ s with currentLine := currentLine, vars := vars }, evs)

def countBp (evs : List NEvent) : Nat :=
  (evs.filter fun e =>
    match e with
    | NEvent.breakpointHit _ _ => true
    | _ => false).length

def countStep (evs : List NEvent) : Nat :=
  (evs.filter fun e =>
    match e with
    | NEvent.stepComplete _ _ => true
    | _ => false).length

/-! Message correlation (`_sendMessage` / `_handleMessage`). -/

inductive ROutcome
  | ok (result : Option JVal)
  | errored (message : String)
  | timedOut (method : String)
deriving DecidableEq

/-- An inbound inspector message `{id?, method?, error?, result?, params?}`
(the fields the correlation logic reads). -/
structure NMsg where
  id : Option Nat := none
  method : Option String := none
  error : Option String := none
  result : Option JVal := none
deriving DecidableEq

/-- How `_handleMessage` settles the promise of a pending request with a
matching id: reject on `message.error`, resolve otherwise. -/
def replyOutcome (message : NMsg) : ROutcome :=
  match message.error with
  | some e => ROutcome.errored e
  | none => ROutcome.ok message.result

/-- The connection-facing part of the adapter's state: `pendingRequests` maps
each outstanding id to the deadline (`now + 5000`) of the timeout scheduled
for it, and `resolved` logs how each settled request's promise was settled,
newest first. -/
structure NConnState where
  connected : Bool
  messageId : Nat
  now : Nat
  pendingRequests : List (Nat × Nat)
  resolved : List (Nat × ROutcome)
deriving DecidableEq

/-- `_sendMessage`: reject at once when not connected; otherwise take the next
id (`this.messageId++`), record the request in the pending table, send, and
schedule a 5000 ms timeout for this id. -/
def sendMessage (method : String) (s : NConnState) : Except String Nat × NConnState :=
  if s.connected = false then (Except.error "Not connected to debugger", s)
  else
    let id := s.messageId
    (Except.ok id,
     { s with
        messageId := id + 1
        pendingRequests := insertReplace s.pendingRequests id (s.now + 5000) })

/-- `_handleMessage`: a message with a truthy `id` matching a pending request
settles and removes exactly that entry; any other message is dispatched as an
asynchronous event by method name (returned here for dispatch —
`Debugger.paused` is handled by `handlePaused`). -/
def handleMessage (message : NMsg) (s : NConnState) : NConnState × Option NMsg :=
  match message.id with
  | some i =>
    if i ≠ 0 ∧ (lookupA s.pendingRequests i).isSome then
      ({ s with
          pendingRequests := eraseKey s.pendingRequests i
          resolved := (i, replyOutcome message) :: s.resolved }, none)
    else (s, some message)
  | none => (s, some message)

/-- The 5000 ms timeout callback of `_sendMessage`: rejects its own request
only, and only if that request is still pending. -/
def fireTimeout (id : Nat) (method : String) (s : NConnState) : NConnState :=
  if (lookupA s.pendingRequests id).isSome then
    { s with
        pendingRequests := eraseKey s.pendingRequests id
        resolved := (id, ROutcome.timedOut method) :: s.resolved }
  else s

/-! ### C2: pause-reason dispatch -/

/-- C2: handling a pause whose reason is `breakpoint` emits exactly one
`breakpointHit` carrying the 1-based line (`lineNumber + 1`) and the rebuilt
snapshot; a pause with reason `other` or `ambiguous` emits exactly one
`stepComplete`; a pause with any other reason emits neither. -/
theorem C2_pause_reason_dispatch (params : PausedParams) (s : NPauseState)
    (topFrame : CallFrame) (rest : List CallFrame)
    (hframes : params.callFrames = topFrame :: rest) :
    ∃ s' evs, handlePaused params s = some (s', evs) ∧
      (params.reason = "breakpoint" →
        countBp evs = 1 ∧ countStep evs = 0 ∧
        NEvent.breakpointHit (topFrame.location.lineNumber + 1)
          (updateVariables topFrame.scopeChain) ∈ evs) ∧
      ((params.reason = "other" ∨ params.reason = "ambiguous") →
        countStep evs = 1 ∧ countBp evs = 0 ∧
        NEvent.stepComplete (topFrame.location.lineNumber + 1)
          (updateVariables topFrame.scopeChain) ∈ evs) ∧
      (params.reason ≠ "breakpoint" → params.reason ≠ "other" →
        params.reason ≠ "ambiguous" → countBp evs = 0 ∧ countStep evs = 0) := by
  simp only [handlePaused, hframes]
  by_cases ho : params.reason = "other" ∨ params.reason = "ambiguous"
  · rw [if_pos ho]
    refine ⟨_, _, rfl, ?_, ?_, ?_⟩
    · intro hb
      rcases ho with h | h <;> (rw [hb] at h; simp at h)
    · intro _
      refine ⟨?_, ?_, ?_⟩ <;> simp [countStep, countBp]
    · intro hnb hno hna
      rcases ho with h | h
      · exact absurd h hno
      · exact absurd h hna
  · rw [if_neg ho]
    by_cases hb : params.reason = "breakpoint"
    · rw [if_pos hb]
      refine ⟨_, _, rfl, ?_, ?_, ?_⟩
      · intro _
        refine ⟨?_, ?_, ?_⟩ <;> simp [countBp, countStep]
      · intro h
        exact absurd h ho
      · intro hnb _ _
        exact absurd hb hnb
    · rw [if_neg hb]
      refine ⟨_, _, rfl, ?_, ?_, ?_⟩
      · intro h
        exact absurd h hb
      · intro h
        exact absurd h ho
      · intro _ _ _
        exact ⟨by simp [countBp], by simp [countStep]⟩

def c2scope : Scope :=
  { type := "local"
    props := [{ name := "x", value := some { type := "number", value := some (JVal.num 42) } }] }

def c2frame : CallFrame := { location := { lineNumber := 4 }, scopeChain := [c2scope] }

def c2params : PausedParams := { reason := "breakpoint", callFrames := [c2frame] }

theorem C2_pause_reason_dispatch_witness :
    ∃ s' evs, handlePaused c2params { currentLine := 0, vars := [] } = some (s', evs) ∧
      (c2params.reason = "breakpoint" →
        countBp evs = 1 ∧ countStep evs = 0 ∧
        NEvent.breakpointHit (c2frame.location.lineNumber + 1)
          (updateVariables c2frame.scopeChain) ∈ evs) ∧
      ((c2params.reason = "other" ∨ c2params.reason = "ambiguous") →
        countStep evs = 1 ∧ countBp evs = 0 ∧
        NEvent.stepComplete (c2frame.location.lineNumber + 1)
          (updateVariables c2frame.scopeChain) ∈ evs) ∧
      (c2params.reason ≠ "breakpoint" → c2params.reason ≠ "other" →
        c2params.reason ≠ "ambiguous" → countBp evs = 0 ∧ countStep evs = 0) :=
  C2_pause_reason_dispatch c2params { currentLine := 0, vars := [] } c2frame [] rfl

/-! ### C7: snapshot wholesale replacement and partial observability -/

/-- C7 (amended): in both adapters the snapshot observed by listeners is one
pause's wholesale rebuild, never a merge with the prior snapshot.
Message-protocol adapter: on every completed pause the snapshot is rebuilt
from the scope chain alone — independent of the prior snapshot, which it
replaces wholesale — and every event notified to listeners carries exactly
that one completed snapshot.  REPL adapter: a landing line resets the
snapshot to a value computed from the line alone (prior-independent), and the
settle notifications (`variablesUpdated` and the landing event) carry exactly
the single snapshot accumulated by the capture branch over the lines read
since that reset.  (A `getVariables()` caller interleaved inside a rebuild,
however, can observe a partially populated snapshot — see the
counterexample.) -/
theorem C7_snapshot_listeners_amended (params : PausedParams) (s s₂ : NPauseState)
    (topFrame : CallFrame) (rest : List CallFrame)
    (hframes : params.callFrames = topFrame :: rest) :
    ∃ s' evs, handlePaused params s = some (s', evs) ∧
      s'.vars = updateVariables topFrame.scopeChain ∧
      (∀ line v, NEvent.breakpointHit line v ∈ evs → v = s'.vars) ∧
      (∀ line v, NEvent.stepComplete line v ∈ evs → v = s'.vars) ∧
      (∀ v, NEvent.variablesUpdated v ∈ evs → v = s'.vars) ∧
      handlePaused params s₂ =
        some ({ s₂ with currentLine := s'.currentLine, vars := s'.vars }, evs) ∧
      (∀ (l : String) (sj₁ sj₂ : JDState), jIsLanding l = true →
        (jLineAction l sj₁).vars = jCaptureLine [] l ∧
        (jLineAction l sj₁).vars = (jLineAction l sj₂).vars) ∧
      (∀ (sj₀ : JDState) (ls : List String) (sj₁ : JDState),
        JReachLines sj₀ ls sj₁ → (∀ l ∈ ls, jIsLanding l = false) →
        sj₁.vars = ls.foldl jCaptureLine sj₀.vars) ∧
      (∀ (sj₀ : JDState) (ls : List String) (sj₁ : JDState) (isBp : Bool),
        JReachLines sj₀ ls sj₁ → (∀ l ∈ ls, jIsLanding l = false) →
        (jFireVarsSettle isBp sj₁).events =
          (if isBp then
            JEvent.breakpointHit sj₁.currentLine (ls.foldl jCaptureLine sj₀.vars)
          else
            JEvent.stepComplete sj₁.currentLine (ls.foldl jCaptureLine sj₀.vars))
            :: JEvent.variablesUpdated (ls.foldl jCaptureLine sj₀.vars)
            :: sj₁.events) := by
  have hland : ∀ (l : String) (sj₁ sj₂ : JDState), jIsLanding l = true →
      (jLineAction l sj₁).vars = jCaptureLine [] l ∧
      (jLineAction l sj₁).vars = (jLineAction l sj₂).vars := by
    intro l sj₁ sj₂ hl
    refine ⟨jLineAction_vars_landing l sj₁ hl, ?_⟩
    rw [jLineAction_vars_landing l sj₁ hl, jLineAction_vars_landing l sj₂ hl]
  have hacc : ∀ (sj₀ : JDState) (ls : List String) (sj₁ : JDState),
      JReachLines sj₀ ls sj₁ → (∀ l ∈ ls, jIsLanding l = false) →
      sj₁.vars = ls.foldl jCaptureLine sj₀.vars :=
    fun sj₀ ls sj₁ h hls => JReachLines_vars sj₀ ls sj₁ h hls
  have hsettle : ∀ (sj₀ : JDState) (ls : List String) (sj₁ : JDState) (isBp : Bool),
      JReachLines sj₀ ls sj₁ → (∀ l ∈ ls, jIsLanding l = false) →
      (jFireVarsSettle isBp sj₁).events =
        (if isBp then
          JEvent.breakpointHit sj₁.currentLine (ls.foldl jCaptureLine sj₀.vars)
        else
          JEvent.stepComplete sj₁.currentLine (ls.foldl jCaptureLine sj₀.vars))
          :: JEvent.variablesUpdated (ls.foldl jCaptureLine sj₀.vars)
          :: sj₁.events := by
    intro sj₀ ls sj₁ isBp h hls
    rw [← JReachLines_vars sj₀ ls sj₁ h hls]
    rfl
  simp only [handlePaused, hframes]
  by_cases ho : params.reason = "other" ∨ params.reason = "ambiguous"
  · rw [if_pos ho]
    refine ⟨_, _, rfl, rfl, ?_, ?_, ?_, rfl, hland, hacc, hsettle⟩
    · intro line v hv
      simp at hv
    · intro line v hv
      simp at hv
      exact hv.2
    · intro v hv
      simp at hv
      exact hv
  · rw [if_neg ho]
    by_cases hb : params.reason = "breakpoint"
    · rw [if_pos hb]
      refine ⟨_, _, rfl, rfl, ?_, ?_, ?_, rfl, hland, hacc, hsettle⟩
      · intro line v hv
        simp at hv
        exact hv.2
      · intro line v hv
        simp at hv
      · intro v hv
        simp at hv
        exact hv
    · rw [if_neg hb]
      refine ⟨_, _, rfl, rfl, ?_, ?_, ?_, rfl, hland, hacc, hsettle⟩
      · intro line v hv
        simp at hv
      · intro line v hv
        simp at hv
      · intro v hv
        simp at hv
        exact hv

def c7scopeA : Scope :=
  { type := "local"
    props := [{ name := "a", value := some { type := "number", value := some (JVal.num 1) } }] }

def c7scopeB : Scope :=
  { type := "local"
    props := [{ name := "b", value := some { type := "number", value := some (JVal.num 2) } }] }

def c7params : PausedParams :=
  { reason := "exception"
    callFrames := [{ location := { lineNumber := 9 }, scopeChain := [c7scopeA, c7scopeB] }] }

theorem C7_snapshot_listeners_amended_witness :
    ∃ s' evs,
      handlePaused c7params { currentLine := 0, vars := [] } = some (s', evs) ∧
      s'.vars = updateVariables [c7scopeA, c7scopeB] ∧
      (∀ line v, NEvent.breakpointHit line v ∈ evs → v = s'.vars) ∧
      (∀ line v, NEvent.stepComplete line v ∈ evs → v = s'.vars) ∧
      (∀ v, NEvent.variablesUpdated v ∈ evs → v = s'.vars) ∧
      handlePaused c7params
          ({ currentLine := 7,
             vars := [("stale", { value := JVal.num 9, type := "number" })] } : NPauseState) =
        some (({ currentLine := s'.currentLine, vars := s'.vars } : NPauseState), evs) ∧
      (∀ (l : String) (sj₁ sj₂ : JDState), jIsLanding l = true →
        (jLineAction l sj₁).vars = jCaptureLine [] l ∧
        (jLineAction l sj₁).vars = (jLineAction l sj₂).vars) ∧
      (∀ (sj₀ : JDState) (ls : List String) (sj₁ : JDState),
        JReachLines sj₀ ls sj₁ → (∀ l ∈ ls, jIsLanding l = false) →
        sj₁.vars = ls.foldl jCaptureLine sj₀.vars) ∧
      (∀ (sj₀ : JDState) (ls : List String) (sj₁ : JDState) (isBp : Bool),
        JReachLines sj₀ ls sj₁ → (∀ l ∈ ls, jIsLanding l = false) →
        (jFireVarsSettle isBp sj₁).events =
          (if isBp then
            JEvent.breakpointHit sj₁.currentLine (ls.foldl jCaptureLine sj₀.vars)
          else
            JEvent.stepComplete sj₁.currentLine (ls.foldl jCaptureLine sj₀.vars))
            :: JEvent.variablesUpdated (ls.foldl jCaptureLine sj₀.vars)
            :: sj₁.events) :=
  C7_snapshot_listeners_amended c7params
    ({ currentLine := 0, vars := [] } : NPauseState)
    ({ currentLine := 7,
       vars := [("stale", { value := JVal.num 9, type := "number" })] } : NPauseState)
    { location := { lineNumber := 9 }, scopeChain := [c7scopeA, c7scopeB] } [] rfl

/-- The partial snapshot observable midway through the rebuild. -/
def c7mid : List (String × NVar) := [("a", { value := JVal.num 1, type := "number" })]

/-- A prior pause's snapshot. -/
def c7prior : List (String × NVar) := [("c", { value := JVal.num 0, type := "number" })]

/-- C7 counterexample: during `_updateVariables` over two relevant scopes, the
state observable by a `getVariables()` caller at the second `await` is the
one-entry map `[("a", 1)]`, which is neither the prior snapshot (here
`[("c", 0)]`) nor the completed snapshot `[("a", 1), ("b", 2)]` of any pause —
refuting "no getVariables() caller observes a partially populated snapshot". -/
theorem C7_snapshot_partial_observation_counterexample :
    getVariables c7mid ∈ updateObservations [c7scopeA, c7scopeB] ∧
    updateVariables [c7scopeA, c7scopeB] =
      [("a", { value := JVal.num 1, type := "number" }),
       ("b", { value := JVal.num 2, type := "number" })] ∧
    c7mid ≠ c7prior ∧
    c7mid ≠ updateVariables [c7scopeA, c7scopeB] := by
  refine ⟨?_, rfl, ?_, ?_⟩
  · show _ ∈ ([] :: c7mid :: [])
    simp [getVariables]
  · simp [c7mid, c7prior]
  · intro h
    rw [show updateVariables [c7scopeA, c7scopeB] =
      [("a", { value := JVal.num 1, type := "number" }),
       ("b", { value := JVal.num 2, type := "number" })] from rfl] at h
    simp [c7mid] at h

/-! ### C4: pending-request table -/

theorem eraseKey_comm {α β : Type} [DecidableEq α] (m : List (α × β)) (a b : α) :
    eraseKey (eraseKey m a) b = eraseKey (eraseKey m b) a := by
  induction m with
  | nil => rfl
  | cons kv rest ih =>
    obtain ⟨k, v⟩ := kv
    by_cases hka : k = a
    · by_cases hkb : k = b
      · subst hka
        subst hkb
        rfl
      · subst hka
        simp [eraseKey, hkb, ih]
    · by_cases hkb : k = b
      · subst hkb
        simp [eraseKey, hka, ih]
      · simp [eraseKey, hka, hkb, ih]

theorem handleMessage_resolves (message : NMsg) (s : NConnState) (i : Nat)
    (hid : message.id = some i) (hnz : i ≠ 0)
    (hpend : (lookupA s.pendingRequests i).isSome) :
    (handleMessage message s).1 =
      { s with
          pendingRequests := eraseKey s.pendingRequests i
          resolved := (i, replyOutcome message) :: s.resolved } := by
  simp only [handleMessage, hid]
  rw [if_pos ⟨hnz, hpend⟩]

/-- C4: every outbound request gets id `this.messageId` and bumps the counter,
so successive requests carry strictly increasing ids, each recorded in the
pending table with the 5000 ms timeout deadline; a reply with a matching id
settles and removes exactly that entry, leaving every other entry untouched;
two outstanding requests settle to the same outcomes and the same final table
in either arrival order of their replies; and the timeout callback fails only
its own request — and is a no-op once that request has been settled. -/
theorem C4_pending_request_table (s : NConnState) (m₁ m₂ : String)
    (hc : s.connected = true) :
    ((sendMessage m₁ s).1 = Except.ok s.messageId ∧
     (sendMessage m₁ s).2.messageId = s.messageId + 1 ∧
     lookupA (sendMessage m₁ s).2.pendingRequests s.messageId = some (s.now + 5000) ∧
     (sendMessage m₂ (sendMessage m₁ s).2).1 = Except.ok (s.messageId + 1)) ∧
    (∀ message i, message.id = some i → i ≠ 0 → (lookupA s.pendingRequests i).isSome →
      lookupA (handleMessage message s).1.pendingRequests i = none ∧
      (∀ j, j ≠ i → lookupA (handleMessage message s).1.pendingRequests j =
        lookupA s.pendingRequests j) ∧
      (handleMessage message s).1.resolved = (i, replyOutcome message) :: s.resolved) ∧
    (∀ msgA msgB a b, msgA.id = some a → msgB.id = some b → a ≠ b → a ≠ 0 → b ≠ 0 →
      (lookupA s.pendingRequests a).isSome → (lookupA s.pendingRequests b).isSome →
      (handleMessage msgB (handleMessage msgA s).1).1.pendingRequests =
        (handleMessage msgA (handleMessage msgB s).1).1.pendingRequests ∧
      (handleMessage msgB (handleMessage msgA s).1).1.resolved =
        (b, replyOutcome msgB) :: (a, replyOutcome msgA) :: s.resolved ∧
      (handleMessage msgA (handleMessage msgB s).1).1.resolved =
        (a, replyOutcome msgA) :: (b, replyOutcome msgB) :: s.resolved) ∧
    (∀ i mth, (lookupA s.pendingRequests i).isSome →
      lookupA (fireTimeout i mth s).pendingRequests i = none ∧
      (∀ j, j ≠ i → lookupA (fireTimeout i mth s).pendingRequests j =
        lookupA s.pendingRequests j) ∧
      (fireTimeout i mth s).resolved = (i, ROutcome.timedOut mth) :: s.resolved) ∧
    (∀ i mth, lookupA s.pendingRequests i = none → fireTimeout i mth s = s) := by
  have hsend : ∀ (m : String) (s' : NConnState), s'.connected = true →
      sendMessage m s' =
        (Except.ok s'.messageId,
         { s' with
            messageId := s'.messageId + 1
            pendingRequests := insertReplace s'.pendingRequests s'.messageId (s'.now + 5000) }) := by
    intro m s' hc'
    unfold sendMessage
    rw [if_neg (by simp [hc'])]
  refine ⟨?_, ?_, ?_, ?_, ?_⟩
  · rw [hsend m₁ s hc]
    refine ⟨rfl, rfl, lookupA_insertReplace_self _ _ _, ?_⟩
    show (sendMessage m₂
      { s with
          messageId := s.messageId + 1
          pendingRequests := insertReplace s.pendingRequests s.messageId (s.now + 5000) }).1 =
      Except.ok (s.messageId + 1)
    rw [hsend m₂
      { s with
          messageId := s.messageId + 1
          pendingRequests := insertReplace s.pendingRequests s.messageId (s.now + 5000) }
      hc]
  · intro message i hid hnz hpend
    rw [handleMessage_resolves message s i hid hnz hpend]
    exact ⟨lookupA_eraseKey_self _ _,
           fun j hj => lookupA_eraseKey_ne _ _ _ hj, rfl⟩
  · intro msgA msgB a b hidA hidB hab ha hb hpA hpB
    have h1 := handleMessage_resolves msgA s a hidA ha hpA
    have h2 := handleMessage_resolves msgB s b hidB hb hpB
    have hpB' : (lookupA (handleMessage msgA s).1.pendingRequests b).isSome := by
      rw [h1]
      simpa [lookupA_eraseKey_ne _ _ _ (Ne.symm hab)] using hpB
    have hpA' : (lookupA (handleMessage msgB s).1.pendingRequests a).isSome := by
      rw [h2]
      simpa [lookupA_eraseKey_ne _ _ _ hab] using hpA
    have h3 := handleMessage_resolves msgB (handleMessage msgA s).1 b hidB hb hpB'
    have h4 := handleMessage_resolves msgA (handleMessage msgB s).1 a hidA ha hpA'
    rw [h3, h4, h1, h2]
    exact ⟨eraseKey_comm _ _ _, rfl, rfl⟩
  · intro i mth hpend
    unfold fireTimeout
    rw [if_pos hpend]
    exact ⟨lookupA_eraseKey_self _ _,
           fun j hj => lookupA_eraseKey_ne _ _ _ hj, rfl⟩
  · intro i mth hnone
    unfold fireTimeout
    rw [if_neg (by simp [hnone])]

def c4state : NConnState :=
  { connected := true, messageId := 3, now := 100,
    pendingRequests := [(1, 5000), (2, 5050)], resolved := [] }

theorem C4_pending_request_table_witness :
    ((sendMessage "Debugger.resume" c4state).1 = Except.ok c4state.messageId ∧
     (sendMessage "Debugger.resume" c4state).2.messageId = c4state.messageId + 1 ∧
     lookupA (sendMessage "Debugger.resume" c4state).2.pendingRequests c4state.messageId =
       some (c4state.now + 5000) ∧
     (sendMessage "Runtime.enable" (sendMessage "Debugger.resume" c4state).2).1 =
       Except.ok (c4state.messageId + 1)) ∧
    (∀ message i, message.id = some i → i ≠ 0 →
      (lookupA c4state.pendingRequests i).isSome →
      lookupA (handleMessage message c4state).1.pendingRequests i = none ∧
      (∀ j, j ≠ i → lookupA (handleMessage message c4state).1.pendingRequests j =
        lookupA c4state.pendingRequests j) ∧
      (handleMessage message c4state).1.resolved =
        (i, replyOutcome message) :: c4state.resolved) ∧
    (∀ msgA msgB a b, msgA.id = some a → msgB.id = some b → a ≠ b → a ≠ 0 → b ≠ 0 →
      (lookupA c4state.pendingRequests a).isSome →
      (lookupA c4state.pendingRequests b).isSome →
      (handleMessage msgB (handleMessage msgA c4state).1).1.pendingRequests =
        (handleMessage msgA (handleMessage msgB c4state).1).1.pendingRequests ∧
      (handleMessage msgB (handleMessage msgA c4state).1).1.resolved =
        (b, replyOutcome msgB) :: (a, replyOutcome msgA) :: c4state.resolved ∧
      (handleMessage msgA (handleMessage msgB c4state).1).1.resolved =
        (a, replyOutcome msgA) :: (b, replyOutcome msgB) :: c4state.resolved) ∧
    (∀ i mth, (lookupA c4state.pendingRequests i).isSome →
      lookupA (fireTimeout i mth c4state).pendingRequests i = none ∧
      (∀ j, j ≠ i → lookupA (fireTimeout i mth c4state).pendingRequests j =
        lookupA c4state.pendingRequests j) ∧
      (fireTimeout i mth c4state).resolved =
        (i, ROutcome.timedOut mth) :: c4state.resolved) ∧
    (∀ i mth, lookupA c4state.pendingRequests i = none → fireTimeout i mth c4state = c4state) :=
  C4_pending_request_table c4state "Debugger.resume" "Runtime.enable" rfl

/-! ### C3: setBreakpoint idempotence -/

theorem lookupA_eq_none_of_countKey_zero {α β : Type} [DecidableEq α]
    (m : List (α × β)) (k : α) (h : countKey m k = 0) : lookupA m k = none := by
  induction m with
  | nil => rfl
  | cons kv rest ih =>
    obtain ⟨k', v'⟩ := kv
    by_cases hk : k' = k
    · subst hk
      simp [countKey] at h
    · simp only [countKey, List.filter_cons] at h
      rw [if_neg (by simp [hk])] at h
      simp [lookupA, hk]
      exact ih h

/-- `nodeDebugger.setBreakpoint`: return `true` at once when an entry for the
line exists (no backend request); otherwise issue `Debugger.setBreakpointByUrl`
(`backend` is its outcome: `ok breakpointId` or a caught failure), record the
returned breakpoint id under the line on success, and report the failure as
`false`.  The last component counts backend requests issued by the call. -/
def nodeSetBreakpoint (line : Nat) (backend : Except String String)
    (breakpoints : List (Nat × String)) : Bool × List (Nat × String) × Nat :=
  if (lookupA breakpoints line).isSome then (true, breakpoints, 0)
  else
    match backend with
    | Except.ok breakpointId => (true, insertReplace breakpoints line breakpointId, 1)
    | Except.error _ => (false, breakpoints, 1)

/-- `javaDebugger.setBreakpoint`: same shape over the command queue — queue
`stop at Class:line` (`backend` its outcome), record `true` under the line. -/
def javaSetBreakpoint (line : Nat) (backend : Except String Unit)
    (breakpoints : List (Nat × Bool)) : Bool × List (Nat × Bool) × Nat :=
  if (lookupA breakpoints line).isSome then (true, breakpoints, 0)
  else
    match backend with
    | Except.ok _ => (true, insertReplace breakpoints line true, 1)
    | Except.error _ => (false, breakpoints, 1)

/-- C3: for both adapters, when the line is not yet set and the backend accepts
the first request, `setBreakpoint(L)` returns `true`; a second call returns
`true` without issuing any backend request and leaves the map unchanged, and
the map then holds exactly one entry keyed by `L`. -/
theorem C3_setBreakpoint_idempotent (L : Nat) (bid : String)
    (mN : List (Nat × String)) (mJ : List (Nat × Bool))
    (b₂ : Except String String) (bJ₂ : Except String Unit)
    (hmN : countKey mN L = 0) (hmJ : countKey mJ L = 0) :
    ((nodeSetBreakpoint L (Except.ok bid) mN).1 = true ∧
     (nodeSetBreakpoint L b₂ (nodeSetBreakpoint L (Except.ok bid) mN).2.1).1 = true ∧
     (nodeSetBreakpoint L b₂ (nodeSetBreakpoint L (Except.ok bid) mN).2.1).2.2 = 0 ∧
     (nodeSetBreakpoint L b₂ (nodeSetBreakpoint L (Except.ok bid) mN).2.1).2.1 =
       (nodeSetBreakpoint L (Except.ok bid) mN).2.1 ∧
     countKey (nodeSetBreakpoint L b₂ (nodeSetBreakpoint L (Except.ok bid) mN).2.1).2.1 L = 1) ∧
    ((javaSetBreakpoint L (Except.ok ()) mJ).1 = true ∧
     (javaSetBreakpoint L bJ₂ (javaSetBreakpoint L (Except.ok ()) mJ).2.1).1 = true ∧
     (javaSetBreakpoint L bJ₂ (javaSetBreakpoint L (Except.ok ()) mJ).2.1).2.2 = 0 ∧
     (javaSetBreakpoint L bJ₂ (javaSetBreakpoint L (Except.ok ()) mJ).2.1).2.1 =
       (javaSetBreakpoint L (Except.ok ()) mJ).2.1 ∧
     countKey (javaSetBreakpoint L bJ₂ (javaSetBreakpoint L (Except.ok ()) mJ).2.1).2.1 L = 1) := by
  have hlkN := lookupA_eq_none_of_countKey_zero mN L hmN
  have hlkJ := lookupA_eq_none_of_countKey_zero mJ L hmJ
  have h1N : nodeSetBreakpoint L (Except.ok bid) mN = (true, insertReplace mN L bid, 1) := by
    unfold nodeSetBreakpoint
    rw [if_neg (by simp [hlkN])]
  have h1J : javaSetBreakpoint L (Except.ok ()) mJ = (true, insertReplace mJ L true, 1) := by
    unfold javaSetBreakpoint
    rw [if_neg (by simp [hlkJ])]
  have h2N : nodeSetBreakpoint L b₂ (insertReplace mN L bid) =
      (true, insertReplace mN L bid, 0) := by
    unfold nodeSetBreakpoint
    rw [if_pos (by rw [lookupA_insertReplace_self]; rfl)]
  have h2J : javaSetBreakpoint L bJ₂ (insertReplace mJ L true) =
      (true, insertReplace mJ L true, 0) := by
    unfold javaSetBreakpoint
    rw [if_pos (by rw [lookupA_insertReplace_self]; rfl)]
  rw [h1N, h1J]
  simp [h2N, h2J, countKey_insertReplace_absent mN L bid hmN,
        countKey_insertReplace_absent mJ L true hmJ]

theorem C3_setBreakpoint_idempotent_witness :
    ((nodeSetBreakpoint 5 (Except.ok "bp-1") []).1 = true ∧
     (nodeSetBreakpoint 5 (Except.error "rejected")
        (nodeSetBreakpoint 5 (Except.ok "bp-1") []).2.1).1 = true ∧
     (nodeSetBreakpoint 5 (Except.error "rejected")
        (nodeSetBreakpoint 5 (Except.ok "bp-1") []).2.1).2.2 = 0 ∧
     (nodeSetBreakpoint 5 (Except.error "rejected")
        (nodeSetBreakpoint 5 (Except.ok "bp-1") []).2.1).2.1 =
       (nodeSetBreakpoint 5 (Except.ok "bp-1") []).2.1 ∧
     countKey (nodeSetBreakpoint 5 (Except.error "rejected")
        (nodeSetBreakpoint 5 (Except.ok "bp-1") []).2.1).2.1 5 = 1) ∧
    ((javaSetBreakpoint 5 (Except.ok ()) []).1 = true ∧
     (javaSetBreakpoint 5 (Except.error "rejected")
        (javaSetBreakpoint 5 (Except.ok ()) []).2.1).1 = true ∧
     (javaSetBreakpoint 5 (Except.error "rejected")
        (javaSetBreakpoint 5 (Except.ok ()) []).2.1).2.2 = 0 ∧
     (javaSetBreakpoint 5 (Except.error "rejected")
        (javaSetBreakpoint 5 (Except.ok ()) []).2.1).2.1 =
       (javaSetBreakpoint 5 (Except.ok ()) []).2.1 ∧
     countKey (javaSetBreakpoint 5 (Except.error "rejected")
        (javaSetBreakpoint 5 (Except.ok ()) []).2.1).2.1 5 = 1) :=
  C3_setBreakpoint_idempotent 5 "bp-1" [] [] (Except.error "rejected") (Except.error "rejected")
    rfl rfl

/-! ### C5 / C8: error propagation and two-phase start -/

/-- JS `try { body } catch (err) { handler }` over a fallible computation. -/
def jsTry {e a : Type} (body : Except e a) (handler : e -> Except e a) : Except e a :=
  match body with
  | Except.ok x => Except.ok x
  | Except.error err => handler err

inductive StartError
  | compileFailed (diagnostics : String)
  | connectionError (message : String)
  | otherError (message : String)
deriving DecidableEq

/-- `_compile`: the separately spawned `javac -g` invocation, judged by exit
code; a non-zero exit rejects with the captured stderr diagnostics. -/
def javaCompile (code : Nat) (stderrData : String) : Except StartError Unit :=
  if code = 0 then Except.ok ()
  else Except.error (StartError.compileFailed ("Compilation failed: " ++ stderrData))

structure JavaStartEffects where
  jdbSpawned : Bool
  stopCalled : Bool
deriving DecidableEq

/-- `javaDebugger.start`: `await _compile()` first, then spawn `jdb` and run
the init/queue sequence (`initOutcome` bundles the outcome of everything after
the spawn); the `catch` runs `this.stop()` and rethrows; success returns
`true`. -/
def javaStart (compileOutcome : Except StartError Unit)
    (initOutcome : Except StartError Unit) :
    Except StartError Bool × JavaStartEffects :=
  match compileOutcome with
  | Except.error err => (Except.error err, { jdbSpawned := false, stopCalled := true })
  | Except.ok _ =>
    match initOutcome with
    | Except.error err => (Except.error err, { jdbSpawned := true, stopCalled := true })
    | Except.ok _ => (Except.ok true, { jdbSpawned := true, stopCalled := false })

structure NodeStartEffects where
  procSpawned : Bool
  stopCalled : Bool
deriving DecidableEq

/-- `nodeDebugger.start`: spawn `node --inspect-brk`, wait, then
`_connectToInspector` (`connectOutcome` bundles its outcome, including the
enable-commands and script-source fetch); the `catch` runs `this.stop()` and
rethrows; success returns `true`. -/
def nodeStart (connectOutcome : Except StartError Unit) :
    Except StartError Bool × NodeStartEffects :=
  match connectOutcome with
  | Except.error err => (Except.error err, { procSpawned := true, stopCalled := true })
  | Except.ok _ => (Except.ok true, { procSpawned := true, stopCalled := false })

/-- `nodeDebugger.continue`: `try { await _sendMessage(..resume..); return
true } catch { log; return false }` (`send` is the request outcome). -/
def nodeContinue (send : Except String JVal) : Except String Bool :=
  jsTry (send.map fun _ => true) (fun _ => Except.ok false)

/-- `nodeDebugger.stepOver`, same shape over `Debugger.stepOver`. -/
def nodeStepOver (send : Except String JVal) : Except String Bool :=
  jsTry (send.map fun _ => true) (fun _ => Except.ok false)

/-- `nodeDebugger.stepInto`, same shape over `Debugger.stepInto`. -/
def nodeStepInto (send : Except String JVal) : Except String Bool :=
  jsTry (send.map fun _ => true) (fun _ => Except.ok false)

/-- `javaDebugger.continue`: `try { await _queueCommand(..cont..); return true }
catch { log; return false }` (`queued` is the queued command outcome). -/
def javaContinue (queued : Except String Unit) : Except String Bool :=
  jsTry (queued.map fun _ => true) (fun _ => Except.ok false)

/-- `javaDebugger.stepOver`, same shape over `next`. -/
def javaStepOver (queued : Except String Unit) : Except String Bool :=
  jsTry (queued.map fun _ => true) (fun _ => Except.ok false)

/-- `javaDebugger.stepInto`, same shape over `step`. -/
def javaStepInto (queued : Except String Unit) : Except String Bool :=
  jsTry (queued.map fun _ => true) (fun _ => Except.ok false)

/-- `nodeDebugger.setBreakpoint` with its `try`/`catch` explicit: the failure
branch is caught and reported as `false`, so the call never rejects. -/
def nodeSetBreakpointE (line : Nat) (backend : Except String String)
    (breakpoints : List (Nat × String)) :
    Except String (Bool × List (Nat × String) × Nat) :=
  if (lookupA breakpoints line).isSome then Except.ok (true, breakpoints, 0)
  else
    jsTry (backend.map fun breakpointId =>
            (true, insertReplace breakpoints line breakpointId, 1))
      (fun _ => Except.ok (false, breakpoints, 1))

/-- `javaDebugger.setBreakpoint` with its `try`/`catch` explicit. -/
def javaSetBreakpointE (line : Nat) (backend : Except String Unit)
    (breakpoints : List (Nat × Bool)) :
    Except String (Bool × List (Nat × Bool) × Nat) :=
  if (lookupA breakpoints line).isSome then Except.ok (true, breakpoints, 0)
  else
    jsTry (backend.map fun _ => (true, insertReplace breakpoints line true, 1))
      (fun _ => Except.ok (false, breakpoints, 1))

theorem nodeSetBreakpointE_never_throws (line : Nat) (backend : Except String String)
    (m : List (Nat × String)) :
    nodeSetBreakpointE line backend m = Except.ok (nodeSetBreakpoint line backend m) := by
  unfold nodeSetBreakpointE nodeSetBreakpoint
  split_ifs with h
  · rfl
  · cases backend <;> rfl

theorem javaSetBreakpointE_never_throws (line : Nat) (backend : Except String Unit)
    (m : List (Nat × Bool)) :
    javaSetBreakpointE line backend m = Except.ok (javaSetBreakpoint line backend m) := by
  unfold javaSetBreakpointE javaSetBreakpoint
  split_ifs with h
  · rfl
  · cases backend <;> rfl

/-- C5: `start()` is the only operation that surfaces failure — and it runs
`stop()` (killing the process / closing the connection) before rethrowing —
while `setBreakpoint`, `continue`, `stepOver` and `stepInto` of both adapters
catch every backend failure locally and report it as the boolean `false`,
never rejecting past the adapter boundary. -/
theorem C5_error_propagation :
    (∀ err, nodeStart (Except.error err) =
      (Except.error err, { procSpawned := true, stopCalled := true })) ∧
    (∀ err initOutcome, javaStart (Except.error err) initOutcome =
      (Except.error err, { jdbSpawned := false, stopCalled := true })) ∧
    (∀ err, javaStart (Except.ok ()) (Except.error err) =
      (Except.error err, { jdbSpawned := true, stopCalled := true })) ∧
    (∀ line backend m, nodeSetBreakpointE line backend m =
      Except.ok (nodeSetBreakpoint line backend m)) ∧
    (∀ line backend m, javaSetBreakpointE line backend m =
      Except.ok (javaSetBreakpoint line backend m)) ∧
    (∀ v, nodeContinue (Except.ok v) = Except.ok true) ∧
    (∀ err, nodeContinue (Except.error err) = Except.ok false) ∧
    (∀ v, nodeStepOver (Except.ok v) = Except.ok true) ∧
    (∀ err, nodeStepOver (Except.error err) = Except.ok false) ∧
    (∀ v, nodeStepInto (Except.ok v) = Except.ok true) ∧
    (∀ err, nodeStepInto (Except.error err) = Except.ok false) ∧
    (∀ v, javaContinue (Except.ok v) = Except.ok true) ∧
    (∀ err, javaContinue (Except.error err) = Except.ok false) ∧
    (∀ v, javaStepOver (Except.ok v) = Except.ok true) ∧
    (∀ err, javaStepOver (Except.error err) = Except.ok false) ∧
    (∀ v, javaStepInto (Except.ok v) = Except.ok true) ∧
    (∀ err, javaStepInto (Except.error err) = Except.ok false) :=
  ⟨fun _ => rfl, fun _ _ => rfl, fun _ => rfl,
   nodeSetBreakpointE_never_throws, javaSetBreakpointE_never_throws,
   fun _ => rfl, fun _ => rfl, fun _ => rfl, fun _ => rfl, fun _ => rfl, fun _ => rfl,
   fun _ => rfl, fun _ => rfl, fun _ => rfl, fun _ => rfl, fun _ => rfl, fun _ => rfl⟩

/-- C8: when the separately spawned `javac -g` invocation exits non-zero,
`start()` fails with the `Compilation failed:` error carrying the captured
compiler stderr, `jdb` is never spawned (and the rollback runs); a zero exit
lets compilation succeed. -/
theorem C8_compile_failure (code : Nat) (stderrData : String)
    (initOutcome : Except StartError Unit) (h : code ≠ 0) :
    javaStart (javaCompile code stderrData) initOutcome =
      (Except.error (StartError.compileFailed ("Compilation failed: " ++ stderrData)),
       { jdbSpawned := false, stopCalled := true }) ∧
    javaCompile 0 stderrData = Except.ok () := by
  constructor
  · unfold javaCompile
    rw [if_neg h]
    rfl
  · rfl

theorem C8_compile_failure_witness :
    javaStart (javaCompile 2 "error: missing semicolon") (Except.ok ()) =
      (Except.error (StartError.compileFailed
        ("Compilation failed: " ++ "error: missing semicolon")),
       { jdbSpawned := false, stopCalled := true }) ∧
    javaCompile 0 "error: missing semicolon" = Except.ok () :=
  C8_compile_failure 2 "error: missing semicolon" (Except.ok ()) (by decide)

/-! ### C6: stop idempotence -/

structure NodeSessionState where
  hasClient : Bool
  connected : Bool
  hasProcess : Bool
  connClosed : Bool
  procKilled : Bool
  isRunning : Bool
deriving DecidableEq

/-- `nodeDebugger.stop`: close the socket when a client exists and `connected`
(a close failure is caught and only logged), kill the process when one exists
(likewise), clear `isRunning`.  `closeOutcome`/`killOutcome` are the outcomes
of the two fallible calls. -/
def nodeStop (closeOutcome killOutcome : Except String Unit) (s : NodeSessionState) :
    Except String NodeSessionState := do
  let s1 <- if s.hasClient && s.connected then
      jsTry (closeOutcome.map fun _ => { s with connClosed := true })
        (fun _ => Except.ok s)
    else Except.ok s
  let s2 <- if s1.hasProcess then
      jsTry (killOutcome.map fun _ => { s1 with procKilled := true })
        (fun _ => Except.ok s1)
    else Except.ok s1
  Except.ok { s2 with isRunning := false }

/-- The state after one clean `stop()` (both fallible calls succeed). -/
def nodeStopRun (s : NodeSessionState) : NodeSessionState :=
  match nodeStop (Except.ok ()) (Except.ok ()) s with
  | Except.ok s1 => s1
  | Except.error _ => s

structure JavaSessionState where
  hasProcess : Bool
  hasRl : Bool
  quitSent : Bool
  procKilled : Bool
  rlClosed : Bool
  isRunning : Bool
deriving DecidableEq

/-- `javaDebugger.stop`: write `quit` to stdin (a failure is caught and only
logged), kill the process after the 500 ms grace timer (likewise; modeled by
its eventual effect), close the line reader (`readline.close` does not throw),
clear `isRunning`. -/
def javaStop (writeOutcome killOutcome : Except String Unit) (s : JavaSessionState) :
    Except String JavaSessionState := do
  let s1 <- if s.hasProcess then
      jsTry (writeOutcome.map fun _ => { s with quitSent := true })
        (fun _ => Except.ok s)
    else Except.ok s
  let s2 <- if s1.hasProcess then
      jsTry (killOutcome.map fun _ => { s1 with procKilled := true })
        (fun _ => Except.ok s1)
    else Except.ok s1
  let s3 := if s2.hasRl then { s2 with rlClosed := true } else s2
  Except.ok { s3 with isRunning := false }

/-- The state after one clean `stop()`. -/
def javaStopRun (s : JavaSessionState) : JavaSessionState :=
  match javaStop (Except.ok ()) (Except.ok ()) s with
  | Except.ok s1 => s1
  | Except.error _ => s

/-- C6: for both adapters `stop()` never raises, whatever the outcomes of the
underlying close/kill/write calls; and a second `stop()` after a completed
one (even one whose calls now fail on the already-closed resources — those
errors are swallowed) returns exactly the state of the first, so stopping
twice is observably equivalent to stopping once. -/
theorem C6_stop_idempotent :
    (∀ closeOutcome killOutcome s,
      (nodeStop closeOutcome killOutcome s).isOk = true) ∧
    (∀ s, nodeStop (Except.ok ()) (Except.ok ()) s = Except.ok (nodeStopRun s)) ∧
    (∀ closeOutcome killOutcome s,
      nodeStop closeOutcome killOutcome (nodeStopRun s) = Except.ok (nodeStopRun s)) ∧
    (∀ writeOutcome killOutcome s,
      (javaStop writeOutcome killOutcome s).isOk = true) ∧
    (∀ s, javaStop (Except.ok ()) (Except.ok ()) s = Except.ok (javaStopRun s)) ∧
    (∀ writeOutcome killOutcome s,
      javaStop writeOutcome killOutcome (javaStopRun s) = Except.ok (javaStopRun s)) := by
  refine ⟨?_, ?_, ?_, ?_, ?_, ?_⟩
  · intro co ko s
    obtain ⟨hc, cn, hp, cc, pk, ir⟩ := s
    cases co <;> cases ko <;> cases hc <;> cases cn <;> cases hp <;> rfl
  · intro s
    obtain ⟨hc, cn, hp, cc, pk, ir⟩ := s
    cases hc <;> cases cn <;> cases hp <;> rfl
  · intro co ko s
    obtain ⟨hc, cn, hp, cc, pk, ir⟩ := s
    cases co <;> cases ko <;> cases hc <;> cases cn <;> cases hp <;> rfl
  · intro wo ko s
    obtain ⟨hp, hr, qs, pk, rc, ir⟩ := s
    cases wo <;> cases ko <;> cases hp <;> cases hr <;> rfl
  · intro s
    obtain ⟨hp, hr, qs, pk, rc, ir⟩ := s
    cases hp <;> cases hr <;> rfl
  · intro wo ko s
    obtain ⟨hp, hr, qs, pk, rc, ir⟩ := s
    cases wo <;> cases ko <;> cases hp <;> cases hr <;> rfl

/-! ### C10: endpoint announcement and connection -/

/-- Matching the regex
`/Debugger listening on (ws:\/\/[^:]+:(\d+)\/[^)]+)/` at the head of `cs`:
on success, (group 1: the full ws url, host, port digits, path). -/
def matchDebuggerListeningAt (cs : List Char) :
    Option (String × String × String × String) :=
  if ("Debugger listening on ws://".toList).isPrefixOf cs then
    let rest := cs.drop 27
    let host := rest.takeWhile (fun c => c ≠ ':')
    let rest1 := rest.dropWhile (fun c => c ≠ ':')
    if host.isEmpty then none
    else
      match rest1 with
      | ':' :: rest2 =>
        let digits := rest2.takeWhile Char.isDigit
        let rest3 := rest2.dropWhile Char.isDigit
        if digits.isEmpty then none
        else
          match rest3 with
          | '/' :: rest4 =>
            let path := rest4.takeWhile (fun c => c ≠ ')')
            if path.isEmpty then none
            else some
              (String.mk ("ws://".toList ++ host ++ ':' :: digits ++ '/' :: path),
               String.mk host, String.mk digits, String.mk path)
          | _ => none
      | _ => none
  else none

/-- The regex scan over the whole line (first match wins). -/
def findDebuggerListening : List Char → Option (String × String × String × String)
  | [] => none
  | c :: rest =>
    match matchDebuggerListeningAt (c :: rest) with
    | some r => some r
    | none => findDebuggerListening rest

/-- The stderr `data` handler of `nodeDebugger.start`: trim the chunk, match
the announcement regex, and on a match set `this.port` from capture group 2
(`parseInt(match[2], 10)`); host and path of the announcement are discarded. -/
def nodeStderrPort (chunk : String) (port : Nat) : Nat :=
  match findDebuggerListening (jsTrimList chunk.toList) with
  | some (_, _, digits, _) => parseDigits digits.toList
  | none => port

/-- The port after the fixed pre-connect wait of `start`, folded over the
stderr chunks that arrived during it; the constructor default is 9229. -/
def nodeStartPort (chunks : List String) : Nat :=
  chunks.foldl (fun p c => nodeStderrPort c p) 9229

/-- `_connectToInspector`: the URL actually dialed —
`ws://localhost:${this.port}/ws` — host `localhost` and path `/ws` are
hardcoded; only the port comes from the announcement. -/
def connectUrl (port : Nat) : String :=
  "ws://localhost:" ++ toString port ++ "/ws"

def nodeStartConnectUrl (chunks : List String) : String :=
  connectUrl (nodeStartPort chunks)

/-- The fixed pre-connect delay of `start`
(`await new Promise(resolve => setTimeout(resolve, 1000))`): `start` always
waits exactly this long, whether or not the announcement has arrived. -/
def nodeStartConnectDelay : Nat := 1000

theorem nodeStartPort_nonmatching (chunks : List String) (p : Nat)
    (h : ∀ c1 ∈ chunks, findDebuggerListening (jsTrimList c1.toList) = none) :
    chunks.foldl (fun q c => nodeStderrPort c q) p = p := by
  induction chunks generalizing p with
  | nil => rfl
  | cons c rest ih =>
    have hc := h c (by simp)
    simp only [List.foldl_cons]
    rw [show nodeStderrPort c p = p from by unfold nodeStderrPort; rw [hc]]
    exact ih p (fun c1 h1 => h c1 (by simp [h1]))

/-- C10 (amended): `start()` waits a fixed 1000 ms — a bounded delay, not
conditioned on the announcement — during which stderr chunks are pattern
matched against the announcement regex; only the port is extracted (the last
matching chunk wins, default 9229 if none matched), and the adapter then
connects to `ws://localhost:<port>/ws` with hardcoded host and path rather
than the announced endpoint. -/
theorem C10_endpoint_extraction_amended (pre post : List String) (c : String)
    (url host digits path : String)
    (hm : findDebuggerListening (jsTrimList c.toList) = some (url, host, digits, path))
    (hpost : ∀ c1 ∈ post, findDebuggerListening (jsTrimList c1.toList) = none) :
    nodeStartConnectUrl (pre ++ c :: post) = connectUrl (parseDigits digits.toList) ∧
    (∀ chunks, (∀ c1 ∈ chunks, findDebuggerListening (jsTrimList c1.toList) = none) →
      nodeStartConnectUrl chunks = connectUrl 9229) ∧
    nodeStartConnectDelay = 1000 := by
  refine ⟨?_, ?_, rfl⟩
  · unfold nodeStartConnectUrl nodeStartPort
    rw [List.foldl_append, List.foldl_cons]
    rw [show nodeStderrPort c (List.foldl (fun q c2 => nodeStderrPort c2 q) 9229 pre) =
      parseDigits digits.toList from by unfold nodeStderrPort; rw [hm]]
    rw [nodeStartPort_nonmatching post _ hpost]
  · intro chunks hchunks
    unfold nodeStartConnectUrl nodeStartPort
    rw [nodeStartPort_nonmatching chunks 9229 hchunks]

def c10chunk : String := "Debugger listening on ws://127.0.0.1:9230/abc-123"

def c10help : String := "For help, see nodejs inspector docs"

theorem C10_endpoint_extraction_amended_witness :
    nodeStartConnectUrl ([] ++ c10chunk :: [c10help]) =
      connectUrl (parseDigits "9230".toList) ∧
    (∀ chunks, (∀ c1 ∈ chunks, findDebuggerListening (jsTrimList c1.toList) = none) →
      nodeStartConnectUrl chunks = connectUrl 9229) ∧
    nodeStartConnectDelay = 1000 :=
  C10_endpoint_extraction_amended [] [c10help] c10chunk
    "ws://127.0.0.1:9230/abc-123" "127.0.0.1" "9230" "abc-123" rfl
    (by
      intro c1 h1
      have h2 : c1 = c10help := by simpa using h1
      subst h2
      rfl)

/-- C10 counterexample: the diagnostic stream announces the endpoint
`ws://127.0.0.1:9230/abc-123`; the regex captures host, port and path, but the
adapter connects to `ws://localhost:9230/ws` — only the port is used, host and
path are hardcoded — so it does not connect to the extracted endpoint, and the
pre-connect wait is the fixed 1000 ms delay regardless of the announcement. -/
theorem C10_endpoint_extraction_counterexample :
    findDebuggerListening (jsTrimList c10chunk.toList) =
      some ("ws://127.0.0.1:9230/abc-123", "127.0.0.1", "9230", "abc-123") ∧
    nodeStartConnectUrl [c10chunk] = "ws://localhost:9230/ws" ∧
    nodeStartConnectUrl [c10chunk] ≠ "ws://127.0.0.1:9230/abc-123" := by
  refine ⟨rfl, rfl, ?_⟩
  intro h
  rw [show nodeStartConnectUrl [c10chunk] = "ws://localhost:9230/ws" from rfl] at h
  simp at h

end Spec2Proof
